import Mathlib

/-!
Verification development for the gores-mapgen generation engine.

The repository ships two source files, `src/config.rs` and `src/generator.rs`.
The remaining modules they reference (`position.rs`, `map.rs`, `walker.rs`,
`kernel.rs`, `random.rs`) are not part of the sources; wherever a definition
below embeds one of those missing modules it carries a doc comment starting
with `Modelled from the spec:` and follows the natural-language specification.
Definitions for `config.rs` and `generator.rs` are translated directly from
the Rust sources.  Machine integers (`usize`) are modelled as `Nat` with
explicit `% 2^64` wrap-around where the source can overflow or underflow;
`f32` values are modelled as `ℚ`; Rust `Result` is modelled as `Except`;
a Rust panic is modelled by returning `none` from an `Option`-valued function.
-/

set_option maxRecDepth 10000

namespace Gores

/-- The modulus of 64-bit `usize` arithmetic. -/
def USIZE : Nat := 2 ^ 64

theorem USIZE_eq : USIZE = 18446744073709551616 := by norm_num [USIZE]

/-- Wrapping `usize` addition. -/
def usizeAdd (a b : Nat) : Nat := (a + b) % USIZE

/-- Wrapping `usize` subtraction (release-mode Rust semantics). -/
def usizeSub (a b : Nat) : Nat := (a + USIZE - b % USIZE) % USIZE

/-- Modelled from the spec: `position.rs` is absent from the sources.  The
closed cell enumeration of the data model (§3): Empty, Hookable, Freeze,
Spawn, Start, Finish. -/
inductive BlockType where
  | Empty
  | Hookable
  | Freeze
  | Spawn
  | Start
  | Finish
deriving DecidableEq

/-- Modelled from the spec: `position.rs` is absent from the sources.
An integer 2D coordinate (§3). -/
structure Position where
  x : Nat
  y : Nat
deriving DecidableEq

/-- `Position::new`. -/
def Position.new (x y : Nat) : Position := ⟨x, y⟩

/-- Modelled from the spec: `position.rs` is absent from the sources.  The
four cardinal shift directions of the walker (§4.4.3). -/
inductive ShiftDirection where
  | Up
  | Right
  | Down
  | Left
deriving DecidableEq

/-- Modelled from the spec: `random.rs` is absent from the sources.  The
shape of `RandomDistConfig` is forced by its uses in `config.rs`:
`values` is an `Option` (it is unwrapped in `validate` and `new` is called
with `None`), `probs` is the list of weights. -/
structure RandomDistConfig (α : Type) where
  values : Option (List α)
  probs : List Rat

/-- `RandomDistConfig::new`. -/
def RandomDistConfig.new {α : Type} (values : Option (List α)) (probs : List Rat) :
    RandomDistConfig α := ⟨values, probs⟩

/-- The generation profile, from `config.rs`.  The fields are exactly those of
the Rust `GenerationConfig`, except that `generator.rs` additionally reads
`inner_size_bounds`, `outer_size_bounds` and `step_weights`, which do not
appear in the `config.rs` shipped with the repository; those three fields are
modelled from the spec (§4.5: initial kernels are built "from the profile's
maximum configured sizes", the sampler from "the profile's direction-weight
table") and added to the structure so that `generator.rs` can be embedded. -/
structure GenerationConfig where
  name : String
  description : Option String
  version : String
  inner_rad_mut_prob : Rat
  inner_size_mut_prob : Rat
  outer_rad_mut_prob : Rat
  outer_size_mut_prob : Rat
  shift_weights : RandomDistConfig ShiftDirection
  plat_min_distance : Nat
  plat_width_bounds : Nat × Nat
  plat_height_bounds : Nat × Nat
  plat_min_empty_height : Nat
  plat_soft_overhang : Bool
  momentum_prob : Rat
  max_distance : Rat
  waypoint_reached_dist : Nat
  inner_size_probs : RandomDistConfig Nat
  outer_margin_probs : RandomDistConfig Nat
  circ_probs : RandomDistConfig Rat
  skip_length_bounds : Nat × Nat
  skip_min_spacing_sqr : Nat
  max_level_skip : Nat
  min_freeze_size : Nat
  enable_pulse : Bool
  pulse_straight_delay : Nat
  pulse_corner_delay : Nat
  pulse_max_kernel_size : Nat
  fade_steps : Nat
  fade_max_size : Nat
  fade_min_size : Nat
  max_subwaypoint_dist : Rat
  subwaypoint_max_shift_dist : Rat
  pos_lock_max_dist : Rat
  pos_lock_max_delay : Nat
  lock_kernel_size : Nat
  inner_size_bounds : Nat × Nat
  outer_size_bounds : Nat × Nat
  step_weights : RandomDistConfig ShiftDirection

/-- `GenerationConfig::validate` from `config.rs`.  The source unwraps
`inner_size_probs.values` (`.as_ref().unwrap()`); a panic is modelled by
`none`, a returned `Result` by `some`.  The value checks mirror the source:
first any zero inner kernel size, then the fade bounds, then the maximum
subwaypoint distance. -/
def GenerationConfig.validate (c : GenerationConfig) : Option (Except String Unit) :=
  match c.inner_size_probs.values with
  | none => none
  | some vs =>
    if vs.any (fun v => decide (v = 0)) then
      some (Except.error "Invalid Config! (inner_size = 0)")
    else if c.fade_max_size = 0 ∨ c.fade_min_size = 0 then
      some (Except.error "fade kernel sizes must be larger than zero")
    else if c.max_subwaypoint_dist ≤ 0 then
      some (Except.error "max subwaypoint distance must be >0")
    else
      some (Except.ok ())

/-- The `Default` impl for `GenerationConfig` from `config.rs` (the three
fields absent from `config.rs` receive defaults consistent with the spec's
"maximum configured sizes" and direction-weight table). -/
def defaultConfig : GenerationConfig where
  name := "default"
  description := none
  version := "1.0"
  inner_rad_mut_prob := 0.25
  inner_size_mut_prob := 0.5
  outer_rad_mut_prob := 0.25
  outer_size_mut_prob := 0.5
  shift_weights := RandomDistConfig.new none [0.4, 0.22, 0.2, 0.18]
  plat_min_distance := 75
  plat_width_bounds := (3, 5)
  plat_height_bounds := (1, 2)
  plat_min_empty_height := 4
  plat_soft_overhang := false
  momentum_prob := 0.01
  max_distance := 3
  waypoint_reached_dist := 250
  inner_size_probs := RandomDistConfig.new (some [3, 5]) [0.25, 0.75]
  outer_margin_probs := RandomDistConfig.new (some [0, 2]) [0.5, 0.5]
  circ_probs := RandomDistConfig.new (some [0, 0.6, 0.8]) [0.75, 0.15, 0.05]
  skip_length_bounds := (3, 11)
  skip_min_spacing_sqr := 45
  max_level_skip := 90
  min_freeze_size := 0
  enable_pulse := false
  pulse_straight_delay := 10
  pulse_corner_delay := 5
  pulse_max_kernel_size := 4
  fade_steps := 60
  fade_max_size := 6
  fade_min_size := 3
  max_subwaypoint_dist := 50
  subwaypoint_max_shift_dist := 5
  pos_lock_max_dist := 20
  pos_lock_max_delay := 1000
  lock_kernel_size := 9
  inner_size_bounds := (3, 5)
  outer_size_bounds := (0, 2)
  step_weights := RandomDistConfig.new none [0.4, 0.22, 0.2, 0.18]

/-- A config whose `inner_size_probs.values` is `None`; `validate` panics on
it (`.unwrap()` of a `None`). -/
def configNoValues : GenerationConfig :=
  { defaultConfig with inner_size_probs := RandomDistConfig.new none [1] }

/-- The error condition C4 claims characterizes `validate`'s `Err` result. -/
def validateErrCond (c : GenerationConfig) : Prop :=
  (∃ vs, c.inner_size_probs.values = some vs ∧ 0 ∈ vs) ∨
    c.fade_max_size = 0 ∨ c.fade_min_size = 0 ∨ c.max_subwaypoint_dist ≤ 0

/-- A grid of cells, addressed as `grid x y` like `grid[[x, y]]` in the
source. -/
abbrev GridFn := Nat → Nat → BlockType

/-- Modelled from the spec: `map.rs` is absent from the sources.  A `Map`
owns a fixed-size 2D cell array of dimensions `width × height` plus the
`spawn` coordinate (§3). -/
structure Map where
  width : Nat
  height : Nat
  grid : GridFn
  spawn : Position

/-- Modelled from the spec: `Map::new(width, height, default, spawn)` builds
the grid with every cell holding the default block type. -/
def Map.new (width height : Nat) (default : BlockType) (spawn : Position) : Map :=
  { width := width, height := height, grid := fun _ _ => default, spawn := spawn }

/-- Modelled from the spec: `map.rs` is absent from the sources.
`set_area(top_left, bottom_right, type, overwrite)` fills the axis-aligned
rectangle (inclusive corners); bounds are clamped at the grid edge, and when
`overwrite = false` only cells currently holding the default `Hookable` are
written (§4.3). -/
def Map.set_area (m : Map) (tl br : Position) (t : BlockType) (overwrite : Bool) : Map :=
  { m with grid := fun x y =>
      if tl.x ≤ x ∧ x ≤ br.x ∧ tl.y ≤ y ∧ y ≤ br.y ∧ x < m.width ∧ y < m.height ∧
          (overwrite = true ∨ m.grid x y = BlockType.Hookable)
      then t else m.grid x y }

/-- Modelled from the spec: `map.rs` is absent from the sources.
`set_area_border` fills only the 1-cell-thick ring at the rectangle's
perimeter, with the same clamping and overwrite semantics as `set_area`
(§4.3). -/
def Map.set_area_border (m : Map) (tl br : Position) (t : BlockType) (overwrite : Bool) : Map :=
  { m with grid := fun x y =>
      if tl.x ≤ x ∧ x ≤ br.x ∧ tl.y ≤ y ∧ y ≤ br.y ∧
          (x = tl.x ∨ x = br.x ∨ y = tl.y ∨ y = br.y) ∧ x < m.width ∧ y < m.height ∧
          (overwrite = true ∨ m.grid x y = BlockType.Hookable)
      then t else m.grid x y }

/-- Modelled from the spec: `kernel.rs` is absent from the sources.  A kernel
is an immutable value `{size, circularity}` (§3); `Kernel::new(size, circ)`
is invoked by `Generator::new`. -/
structure Kernel where
  size : Nat
  circularity : Rat

/-- `Kernel::new`. -/
def Kernel.new (size : Nat) (circularity : Rat) : Kernel := ⟨size, circularity⟩

/-- Modelled from the spec: the exact kernel membership metric is an open
question of the spec (§9); as the spec instructs, one concrete inclusion test
is picked and applied uniformly: a cell offset belongs to the kernel iff its
squared Euclidean distance from the center is at most `size²`. -/
def Kernel.containsOffset (k : Kernel) (dx dy : Int) : Prop :=
  dx ^ 2 + dy ^ 2 ≤ (k.size : Int) ^ 2

instance (k : Kernel) (dx dy : Int) : Decidable (k.containsOffset dx dy) := by
  unfold Kernel.containsOffset; infer_instance

/-- Modelled from the spec: carving applies a kernel at a center position,
clipping to grid bounds; the inner kernel carves `Empty` overwriting terrain,
while the outer kernel (`onlyHookable = true`) writes `Freeze` only over
default `Hookable` cells, never downgrading a cell the inner kernel claimed
(§4.2). -/
def Map.applyKernel (m : Map) (center : Position) (k : Kernel) (t : BlockType)
    (onlyHookable : Bool) : Map :=
  { m with grid := fun x y =>
      if x < m.width ∧ y < m.height ∧
          k.containsOffset ((x : Int) - (center.x : Int)) ((y : Int) - (center.y : Int)) ∧
          (onlyHookable = false ∨ m.grid x y = BlockType.Hookable)
      then t else m.grid x y }

/-- Modelled from the spec: `random.rs` is absent from the sources.  The
seeded `WeightedSampler` (§4.1): an internal 64-bit state advanced by a
linear-congruential step, together with the direction-weight table handed to
`Random::new` by `Generator::new`. -/
structure Random where
  state : Nat
  weights : RandomDistConfig ShiftDirection

/-- `Random::new(seed, step_weights)`. -/
def Random.new (seed : Nat) (weights : RandomDistConfig ShiftDirection) : Random :=
  ⟨seed % USIZE, weights⟩

/-- Exact rational addition, written through `mkRat` so that it evaluates by
plain reduction (the library's `Rat.add` is irreducible). -/
def qadd (a b : Rat) : Rat := mkRat (a.num * (b.den : Int) + b.num * (a.den : Int)) (a.den * b.den)

/-- Exact rational subtraction, written through `mkRat` (see `qadd`). -/
def qsub (a b : Rat) : Rat := mkRat (a.num * (b.den : Int) - b.num * (a.den : Int)) (a.den * b.den)

/-- Exact rational multiplication, written through `mkRat` (see `qadd`). -/
def qmul (a b : Rat) : Rat := mkRat (a.num * b.num) (a.den * b.den)

/-- Modelled from the spec: one LCG advance of the sampler state (any fixed
seeded deterministic generator satisfies §4.1). -/
def Random.next (r : Random) : Nat × Random :=
  let s := (6364136223846793005 * r.state + 1442695040888963407) % USIZE
  (s, { r with state := s })

/-- Modelled from the spec: a uniform draw in `[0, 1)`, used for stamp fuzz,
momentum and mutation decisions (§4.1). -/
def Random.unitDraw (r : Random) : Rat × Random :=
  let (s, r') := r.next
  (mkRat (s % 2 ^ 32) (2 ^ 32), r')

/-- Modelled from the spec: pick a value from parallel value/weight lists,
consuming a target mass `t`; values are selected with probability
proportional to weight (§4.1). -/
def pickWeighted {α : Type} : List α → List Rat → Rat → Option α
  | [], _, _ => none
  | _ :: _, [], _ => none
  | v :: vs, p :: ps, t => if t < p then some v else pickWeighted vs ps (qsub t p)

/-- Modelled from the spec: `sample_weighted(values, weights)`; weights need
not sum to 1, and an all-zero (or empty) weight list yields no value instead
of a silent fallback (§4.1). -/
def sampleWeighted {α : Type} (vs : List α) (ps : List Rat) (r : Rat) : Option α :=
  let total := ps.foldl qadd 0
  if 0 < total then pickWeighted vs ps (qmul r total) else none

/-- Modelled from the spec: draw a value from a discrete distribution config,
advancing the sampler state. -/
def Random.sampleFrom {α : Type} (r : Random) (d : RandomDistConfig α) : Option α × Random :=
  let (q, r') := r.unitDraw
  (match d.values with
   | none => none
   | some vs => sampleWeighted vs d.probs q, r')

/-- Modelled from the spec: draw a rank index from the sampler's rank-indexed
direction-weight table (rank 0 = best direction, §4.4.3). -/
def Random.sampleRank (r : Random) : Nat × Random :=
  let (q, r') := r.unitDraw
  ((sampleWeighted (List.range r.weights.probs.length) r.weights.probs q).getD 0, r')

/-- Modelled from the spec: `walker.rs` is absent from the sources.  The
walker state (§3): live position, inner/outer kernel, ordered waypoint list
with cursor index, last shift direction for momentum, step counter, the
lock-position bookkeeping for stuck detection, and the `finished` flag. -/
structure CuteWalker where
  pos : Position
  innerKernel : Kernel
  outerKernel : Kernel
  waypoints : List Position
  goalIndex : Nat
  finished : Bool
  lastShift : Option ShiftDirection
  steps : Nat
  lockedPos : Position
  lockCounter : Nat

/-- Modelled from the spec: the waypoint sequence of the profile's associated
map skeleton (§4.5, §6); the skeleton embodied in `config.rs` is the default
`MapConfig`, whose waypoint list is given by its `Default` impl. -/
def defaultWaypoints : List Position :=
  [Position.new 50 250, Position.new 250 250, Position.new 250 150,
   Position.new 50 150, Position.new 50 50, Position.new 250 50]

/-- `CuteWalker::new(spawn, inner, outer, config)`: the walker starts at the
spawn position with the waypoint sequence of the map skeleton (§4.5). -/
def CuteWalker.new (spawn : Position) (inner outer : Kernel)
    (_config : GenerationConfig) : CuteWalker :=
  { pos := spawn, innerKernel := inner, outerKernel := outer,
    waypoints := defaultWaypoints, goalIndex := 0, finished := false,
    lastShift := none, steps := 0, lockedPos := spawn, lockCounter := 0 }

/-- Squared Euclidean distance between two positions. -/
def dist2 (p q : Position) : Int :=
  ((p.x : Int) - (q.x : Int)) * ((p.x : Int) - (q.x : Int)) +
    ((p.y : Int) - (q.y : Int)) * ((p.y : Int) - (q.y : Int))

/-- Modelled from the spec: `is_goal_reached` — `Some` of whether the distance
to the current waypoint is within the configured threshold, and `None` once
the walker is `Finished` (the `Finished` state is terminal and the per-step
protocol only runs while `Walking`, §4.4). -/
def CuteWalker.is_goal_reached (w : CuteWalker) (cfg : GenerationConfig) : Option Bool :=
  if w.finished then none
  else (w.waypoints[w.goalIndex]?).map fun goal =>
    decide (dist2 w.pos goal ≤ (cfg.waypoint_reached_dist : Int) * (cfg.waypoint_reached_dist : Int))

/-- Modelled from the spec: advance the waypoint cursor; when no waypoint
remains the walker becomes permanently `finished` (§3, §4.4). -/
def CuteWalker.next_waypoint (w : CuteWalker) : CuteWalker :=
  if w.goalIndex + 1 < w.waypoints.length then { w with goalIndex := w.goalIndex + 1 }
  else { w with finished := true }

/-- Modelled from the spec: the position one cell away in a shift direction,
as integer coordinates (used for ranking directions, §4.4.3). -/
def shiftTarget (p : Position) (d : ShiftDirection) : Int × Int :=
  match d with
  | ShiftDirection.Up => ((p.x : Int), (p.y : Int) - 1)
  | ShiftDirection.Right => ((p.x : Int) + 1, (p.y : Int))
  | ShiftDirection.Down => ((p.x : Int), (p.y : Int) + 1)
  | ShiftDirection.Left => ((p.x : Int) - 1, (p.y : Int))

/-- Modelled from the spec: move one cell in a direction, failing (`none`)
when the move would leave the `[0,width) × [0,height)` grid (§4.4.3). -/
def shiftPos (p : Position) (d : ShiftDirection) (width height : Nat) : Option Position :=
  match d with
  | ShiftDirection.Up => if p.y = 0 then none else some ⟨p.x, p.y - 1⟩
  | ShiftDirection.Right => if p.x + 1 < width then some ⟨p.x + 1, p.y⟩ else none
  | ShiftDirection.Down => if p.y + 1 < height then some ⟨p.x, p.y + 1⟩ else none
  | ShiftDirection.Left => if p.x = 0 then none else some ⟨p.x - 1, p.y⟩

/-- Squared distance from the cell one step in direction `d` to the goal. -/
def shiftKey (pos goal : Position) (d : ShiftDirection) : Int :=
  let t := shiftTarget pos d
  (t.1 - (goal.x : Int)) * (t.1 - (goal.x : Int)) + (t.2 - (goal.y : Int)) * (t.2 - (goal.y : Int))

/-- Insertion into a list sorted by ascending key. -/
def insertByKey (key : ShiftDirection → Int) (d : ShiftDirection) :
    List ShiftDirection → List ShiftDirection
  | [] => [d]
  | e :: es => if key d < key e then d :: e :: es else e :: insertByKey key d es

/-- Modelled from the spec: rank the four cardinal directions best-to-worst by
how much each reduces the remaining distance to the current waypoint
(§4.4.3); any monotonic ranking is acceptable per §9. -/
def rankShifts (pos goal : Position) : List ShiftDirection :=
  [ShiftDirection.Up, ShiftDirection.Right, ShiftDirection.Down,
   ShiftDirection.Left].foldr (insertByKey (shiftKey pos goal)) []

/-- Modelled from the spec: `mutate_kernel` — independently, with the
configured probabilities, resample the inner size, inner circularity, outer
size (margin over the inner size) and outer circularity from the profile's
discrete distributions; each mutation replaces the whole kernel value and
unmutated kernels persist (§4.4.2). -/
def CuteWalker.mutate_kernel (w : CuteWalker) (cfg : GenerationConfig) (rnd : Random) :
    CuteWalker × Random :=
  let (r1, rnd) := rnd.unitDraw
  let (w, rnd) :=
    if r1 < cfg.inner_size_mut_prob then
      let (v, rnd) := rnd.sampleFrom cfg.inner_size_probs
      ({ w with innerKernel := Kernel.new (v.getD w.innerKernel.size) w.innerKernel.circularity },
       rnd)
    else (w, rnd)
  let (r2, rnd) := rnd.unitDraw
  let (w, rnd) :=
    if r2 < cfg.inner_rad_mut_prob then
      let (c, rnd) := rnd.sampleFrom cfg.circ_probs
      ({ w with innerKernel := Kernel.new w.innerKernel.size (c.getD w.innerKernel.circularity) },
       rnd)
    else (w, rnd)
  let (r3, rnd) := rnd.unitDraw
  let (w, rnd) :=
    if r3 < cfg.outer_size_mut_prob then
      let (v, rnd) := rnd.sampleFrom cfg.outer_margin_probs
      let newOuter := Kernel.new (w.innerKernel.size + v.getD 0) w.outerKernel.circularity
      ({ w with outerKernel := newOuter }, rnd)
    else (w, rnd)
  let (r4, rnd) := rnd.unitDraw
  let (w, rnd) :=
    if r4 < cfg.outer_rad_mut_prob then
      let (c, rnd) := rnd.sampleFrom cfg.circ_probs
      ({ w with outerKernel := Kernel.new w.outerKernel.size (c.getD w.outerKernel.circularity) },
       rnd)
    else (w, rnd)
  (w, rnd)

/-- Modelled from the spec: `probabilistic_step` — rank the directions toward
the current waypoint, draw a rank from the rank-indexed weight table,
optionally override it with the previous direction (momentum), move one cell
(failing with an out-of-bounds error when the move would leave the grid),
carve the inner kernel as `Empty` and the outer kernel as `Freeze`, and run
stuck detection: when the position has not moved beyond the configured lock
distance for more than the configured number of steps the run fails with a
distinct stuck error (§4.4.3–§4.4.5). -/
def CuteWalker.probabilistic_step (w : CuteWalker) (m : Map) (rnd : Random)
    (cfg : GenerationConfig) : Except String (CuteWalker × Map × Random) :=
  match w.waypoints[w.goalIndex]? with
  | none => Except.ok (w, m, rnd)
  | some goal =>
    let ranked := rankShifts w.pos goal
    let (rank, rnd) := rnd.sampleRank
    let dir0 := ranked.getD rank ShiftDirection.Right
    let (rm, rnd) := rnd.unitDraw
    let dir := if rm < cfg.momentum_prob then w.lastShift.getD dir0 else dir0
    match shiftPos w.pos dir m.width m.height with
    | none => Except.error "walker step out of bounds"
    | some newPos =>
      let m1 := m.applyKernel newPos w.innerKernel BlockType.Empty false
      let m2 := m1.applyKernel newPos w.outerKernel BlockType.Freeze true
      let moved : Bool :=
        decide (mkRat (dist2 newPos w.lockedPos) 1 >
          qmul cfg.pos_lock_max_dist cfg.pos_lock_max_dist)
      let lockedPos := if moved then newPos else w.lockedPos
      let lockCounter := if moved then 0 else w.lockCounter + 1
      if lockCounter > cfg.pos_lock_max_delay then Except.error "Generation got stuck"
      else
        let w2 := { w with
          pos := newPos
          lastShift := some dir
          steps := w.steps + 1
          lockedPos := lockedPos
          lockCounter := lockCounter }
        Except.ok (w2, m2, rnd)

/-- The generator state, from `generator.rs`. -/
structure Generator where
  walker : CuteWalker
  map : Map
  rnd : Random

/-- `Generator::new` from `generator.rs`: spawn `(50, 250)`, a `300 × 300`
grid of `Hookable`, initial kernels from the maximum configured sizes
(`inner_size_bounds.1` / `outer_size_bounds.1` in Rust are the second tuple
components), the walker at the spawn, and the sampler from the seed and the
step-weight table. -/
def Generator.new (config : GenerationConfig) (seed : Nat) : Generator :=
  let spawn := Position.new 50 250
  let map := Map.new 300 300 BlockType.Hookable spawn
  let init_inner_kernel := Kernel.new config.inner_size_bounds.2 0
  let init_outer_kernel := Kernel.new config.outer_size_bounds.2 (mkRat 1 10)
  let walker := CuteWalker.new spawn init_inner_kernel init_outer_kernel config
  let rnd := Random.new seed config.step_weights
  { walker := walker, map := map, rnd := rnd }

/-- `Generator::step` from `generator.rs`: advance the waypoint cursor when
the goal is reached, then — unless the walker is finished — mutate the
kernels and perform one probabilistic walker step. -/
def Generator.step (g : Generator) (config : GenerationConfig) : Except String Generator :=
  let g1 :=
    if g.walker.is_goal_reached config = some true then
      { g with walker := g.walker.next_waypoint }
    else g
  if g1.walker.finished = false then
    let (w, rnd) := g1.walker.mutate_kernel config g1.rnd
    match w.probabilistic_step g1.map rnd config with
    | Except.error e => Except.error e
    | Except.ok (w2, m2, rnd2) => Except.ok { walker := w2, map := m2, rnd := rnd2 }
  else Except.ok g1

/-- The wrapped neighbour index `v + d - 1` computed by `fix_edge_bugs` in
`generator.rs`: 64-bit `usize` arithmetic, so `x + dx - 1` underflows to
`2^64 - 1` when `x + dx = 0` (release-mode wrap-around semantics flagged by
the source's `TODO: deal with overflow?`). -/
def neighborCoord (v d : Nat) : Nat := (v + d + (USIZE - 1)) % USIZE

/-- The inner 8-neighbour scan of `fix_edge_bugs` from `generator.rs`: for
`dx, dy ∈ {0,1,2}` other than `(1,1)`, the wrapped neighbour coordinate is
guarded by `neighbor_x < width && neighbor_y < height` and the neighbour is
tested for `Hookable`.  The scan's result (whether the flag `edge_bug[[x,y]]`
ends up set) is the disjunction over the eight neighbour probes. -/
def hasBugAt (width height : Nat) (g : GridFn) (x y : Nat) : Bool :=
  (List.range 3).any fun dx => (List.range 3).any fun dy =>
    if dx = 1 ∧ dy = 1 then false
    else if neighborCoord x dx < width ∧ neighborCoord y dy < height then
      decide (g (neighborCoord x dx) (neighborCoord y dy) = BlockType.Hookable)
    else false

/-- Point update of a grid function, modelling `self.map.grid[[x, y]] = v`. -/
def setG (g : GridFn) (x y : Nat) (t : BlockType) : GridFn :=
  fun a b => if a = x ∧ b = y then t else g a b

/-- One iteration of the `fix_edge_bugs` double loop at cell `c`: when the
cell is `Empty`, record whether it is an edge bug and convert it to `Freeze`
if so.  The state is the pair of the (mutable) grid and the `edge_bug`
boolean array. -/
def passCell (width height : Nat) (st : GridFn × (Nat → Nat → Bool)) (c : Nat × Nat) :
    GridFn × (Nat → Nat → Bool) :=
  if st.1 c.1 c.2 = BlockType.Empty then
    let b := hasBugAt width height st.1 c.1 c.2
    (if b then setG st.1 c.1 c.2 BlockType.Freeze else st.1,
     fun a b' => if a = c.1 ∧ b' = c.2 then b else st.2 a b')
  else st

/-- The scan order of `fix_edge_bugs`: `for x in 0..width { for y in
0..height { ... } }`. -/
def allCoords (width height : Nat) : List (Nat × Nat) :=
  (List.range width).flatMap fun x => (List.range height).map fun y => (x, y)

/-- `Generator::fix_edge_bugs` from `generator.rs`, as a function of the map:
scan every cell in `x`-major order, convert every `Empty` cell with a
`Hookable` 8-neighbour to `Freeze` in place, and also return the `edge_bug`
boolean array the source builds alongside. -/
def Map.fix_edge_bugs (m : Map) : Map × (Nat → Nat → Bool) :=
  let res := (allCoords m.width m.height).foldl (passCell m.width m.height)
    (m.grid, fun _ _ => false)
  ({ m with grid := res.1 }, res.2)

/-- `Generator::fix_edge_bugs` acting on the generator state (the returned
`edge_bug` array is discarded by `post_processing`, as in the source). -/
def Generator.fix_edge_bugs (g : Generator) : Generator × (Nat → Nat → Bool) :=
  let res := g.map.fix_edge_bugs
  ({ g with map := res.1 }, res.2)

/-- `Generator::generate_room` from `generator.rs`: carve a square `Empty`
room of the given margin around `pos`, stamp a `Hookable` platform through
its centre, stamp a `Spawn` line one cell above the platform when the zone is
`Start`, and stamp a zone border one cell outside the room.  All position
arithmetic is wrapping `usize` arithmetic. -/
def Generator.generate_room (g : Generator) (pos : Position) (margin : Nat)
    (zone_type : BlockType) : Generator :=
  let m1 := g.map.set_area
    (Position.new (usizeSub pos.x margin) (usizeSub pos.y margin))
    (Position.new (usizeAdd pos.x margin) (usizeAdd pos.y margin))
    BlockType.Empty true
  let m2 := m1.set_area
    (Position.new (usizeSub pos.x (margin - 2)) pos.y)
    (Position.new (usizeAdd pos.x (margin - 2)) pos.y)
    BlockType.Hookable true
  let m3 :=
    if zone_type = BlockType.Start then
      m2.set_area
        (Position.new (usizeSub pos.x (margin - 2)) (usizeSub pos.y 1))
        (Position.new (usizeAdd pos.x (margin - 2)) (usizeSub pos.y 1))
        BlockType.Spawn true
    else m2
  let m4 := m3.set_area_border
    (Position.new (usizeSub (usizeSub pos.x margin) 1) (usizeSub (usizeSub pos.y margin) 1))
    (Position.new (usizeAdd (usizeAdd pos.x margin) 1) (usizeAdd (usizeAdd pos.y margin) 1))
    zone_type false
  { g with map := m4 }

/-- `Generator::post_processing` from `generator.rs`: run the edge-bug repair
pass once, then carve the `Start` room at the spawn and the `Finish` room at
the walker's final position, each with margin 4. -/
def Generator.post_processing (g : Generator) : Generator :=
  let g1 := (g.fix_edge_bugs).1
  let g2 := g1.generate_room g1.map.spawn 4 BlockType.Start
  g2.generate_room g2.walker.pos 4 BlockType.Finish

/-- The stepping loop of `Generator::generate_map`: `for _ in 0..max_steps {
if gen.walker.finished { break; } gen.step(&config)?; }`, as structural
recursion on the remaining iteration count. -/
def genLoop (config : GenerationConfig) : Nat → Generator → Except String Generator
  | 0, g => Except.ok g
  | n + 1, g =>
    if g.walker.finished then Except.ok g
    else
      match g.step config with
      | Except.error e => Except.error e
      | Except.ok g' => genLoop config n g'

/-- `Generator::generate_map` from `generator.rs`: build the initial state
from the config and seed, drive the step loop up to `max_steps` times
(propagating any step error with `?`), then run post-processing and return
the map. -/
def Generator.generate_map (max_steps : Nat) (seed : Nat) (config : GenerationConfig) :
    Except String Map :=
  match genLoop config max_steps (Generator.new config seed) with
  | Except.error e => Except.error e
  | Except.ok g => Except.ok g.post_processing.map

/-- 8-adjacency of grid coordinates: `(nx, ny)` is one of the eight
neighbours of `(x, y)`. -/
def adj8 (x y nx ny : Nat) : Prop :=
  (nx + 1 = x ∨ nx = x ∨ nx = x + 1) ∧ (ny + 1 = y ∨ ny = y ∨ ny = y + 1) ∧
    ¬(nx = x ∧ ny = y)

instance (x y nx ny : Nat) : Decidable (adj8 x y nx ny) := by
  unfold adj8; infer_instance

/-- Cell `(x, y)` has an in-bounds 8-neighbour holding `Hookable`. -/
def HookableNeighbor (m : Map) (x y : Nat) : Prop :=
  ∃ nx ny, nx < m.width ∧ ny < m.height ∧ adj8 x y nx ny ∧
    m.grid nx ny = BlockType.Hookable

/-- Arithmetic of the wrapped neighbour index: for an in-bounds cell
coordinate and `d ≤ 2`, the bounds guard of `fix_edge_bugs` accepts the
wrapped index exactly when the ideal neighbour `v + d - 1` exists and is in
bounds, and an underflowing index wraps to `2^64 - 1`. -/
theorem neighborCoord_spec (w v d : Nat) (hw : w < USIZE) (hv : v < w) (hd : d ≤ 2) :
    (neighborCoord v d < w ↔ 1 ≤ v + d ∧ v + d - 1 < w) ∧
      (v + d = 0 → neighborCoord v d = USIZE - 1) ∧
      (1 ≤ v + d → neighborCoord v d = v + d - 1) := by
  have hw' : w < 18446744073709551616 := by rw [← USIZE_eq]; exact hw
  unfold neighborCoord
  rw [USIZE_eq]
  omega

/-- `hasBugAt` only inspects which cells are `Hookable`, so it is invariant
under grid changes that preserve `Hookable`-ness of every cell. -/
theorem hasBugAt_congr (w h : Nat) (g₁ g₂ : GridFn)
    (hq : ∀ a b, g₁ a b = BlockType.Hookable ↔ g₂ a b = BlockType.Hookable)
    (x y : Nat) : hasBugAt w h g₁ x y = hasBugAt w h g₂ x y := by
  have key : ∀ a b, decide (g₁ a b = BlockType.Hookable) =
      decide (g₂ a b = BlockType.Hookable) := by
    intro a b
    by_cases hc : g₁ a b = BlockType.Hookable
    · simp [hc, (hq a b).mp hc]
    · have hc2 : ¬ g₂ a b = BlockType.Hookable := fun h2 => hc ((hq a b).mpr h2)
      simp [hc, hc2]
  unfold hasBugAt
  simp only [key]

/-- Pointwise description of the grid component of one `fix_edge_bugs` loop
iteration. -/
theorem passCell_fst (w h : Nat) (g : GridFn) (bugs : Nat → Nat → Bool) (c : Nat × Nat)
    (x y : Nat) :
    (passCell w h (g, bugs) c).1 x y =
      if g c.1 c.2 = BlockType.Empty ∧ hasBugAt w h g c.1 c.2 = true ∧ x = c.1 ∧ y = c.2
      then BlockType.Freeze else g x y := by
  by_cases h1 : g c.1 c.2 = BlockType.Empty
  · by_cases h2 : hasBugAt w h g c.1 c.2 = true
    · by_cases h3 : x = c.1 ∧ y = c.2
      · simp [passCell, setG, h1, h2, h3]
      · simp [passCell, setG, h1, h2, h3]
    · by_cases h3 : x = c.1 ∧ y = c.2
      · simp [passCell, setG, h1, h2, h3]
      · simp [passCell, setG, h1, h2, h3]
  · simp [passCell, h1]

/-- Pointwise description of the full `fix_edge_bugs` fold: a cell is turned
into `Freeze` exactly when it is scanned, currently `Empty`, and flagged by
the 8-neighbour probe; since the pass only ever overwrites `Empty` cells with
`Freeze`, the probe agrees with the probe on the original grid throughout. -/
theorem foldPass_grid (w h : Nat) (g : GridFn) (L : List (Nat × Nat)) :
    ∀ (g' : GridFn) (bugs : Nat → Nat → Bool),
      (∀ a b, g' a b = BlockType.Hookable ↔ g a b = BlockType.Hookable) →
      ∀ x y, (L.foldl (passCell w h) (g', bugs)).1 x y =
        if (x, y) ∈ L ∧ g' x y = BlockType.Empty ∧ hasBugAt w h g x y = true
        then BlockType.Freeze else g' x y := by
  induction L with
  | nil =>
    intro g' bugs _ x y
    simp
  | cons c T ih =>
    obtain ⟨c1, c2⟩ := c
    intro g' bugs hq x y
    rw [List.foldl_cons]
    have hfst := passCell_fst w h g' bugs (c1, c2)
    have hBC := hasBugAt_congr w h g' g hq c1 c2
    have hq' : ∀ a b, (passCell w h (g', bugs) (c1, c2)).1 a b = BlockType.Hookable ↔
        g a b = BlockType.Hookable := by
      intro a b
      rw [hfst a b]
      by_cases hcond : g' c1 c2 = BlockType.Empty ∧ hasBugAt w h g' c1 c2 = true ∧
          a = c1 ∧ b = c2
      · rw [if_pos hcond]
        constructor
        · intro hF; cases hF
        · intro hH
          exfalso
          have hab : g' a b = BlockType.Empty := by
            rcases hcond with ⟨hE, _, ha, hb⟩; rw [ha, hb]; exact hE
          have hcontra := (hq a b).mpr hH
          rw [hab] at hcontra; cases hcontra
      · rw [if_neg hcond]; exact hq a b
    have hstate : passCell w h (g', bugs) (c1, c2) =
        ((passCell w h (g', bugs) (c1, c2)).1, (passCell w h (g', bugs) (c1, c2)).2) := rfl
    rw [hstate,
      ih (passCell w h (g', bugs) (c1, c2)).1 (passCell w h (g', bugs) (c1, c2)).2 hq' x y]
    rw [hfst x y, hBC]
    clear hstate hfst hBC hq' ih
    by_cases hxy : x = c1 ∧ y = c2
    · obtain ⟨hx, hy⟩ := hxy
      by_cases hE : g' x y = BlockType.Empty <;>
        by_cases hB : hasBugAt w h g x y = true <;>
        by_cases hmemT : (x, y) ∈ T <;>
        simp_all [List.mem_cons, Prod.ext_iff]
    · have hifE : (if g' c1 c2 = BlockType.Empty ∧ hasBugAt w h g c1 c2 = true ∧
          x = c1 ∧ y = c2 then BlockType.Freeze else g' x y) = g' x y :=
        if_neg (fun hc => hxy ⟨hc.2.2.1, hc.2.2.2⟩)
      have hm : ((x, y) ∈ (c1, c2) :: T) ↔ ((x, y) ∈ T) := by
        rw [List.mem_cons]
        constructor
        · rintro (hc | ht)
          · exact absurd ⟨congrArg Prod.fst hc, congrArg Prod.snd hc⟩ hxy
          · exact ht
        · exact Or.inr
      rw [hifE]
      simp only [hm]

/-- Membership in the scan order is exactly in-bounds-ness. -/
theorem mem_allCoords (w h x y : Nat) : (x, y) ∈ allCoords w h ↔ x < w ∧ y < h := by
  simp [allCoords, List.mem_flatMap, List.mem_range]

/-- Pointwise characterization of `fix_edge_bugs` (grid component) against
the original grid. -/
theorem fix_grid_char (m : Map) (x y : Nat) :
    (m.fix_edge_bugs).1.grid x y =
      if x < m.width ∧ y < m.height ∧ m.grid x y = BlockType.Empty ∧
          hasBugAt m.width m.height m.grid x y = true
      then BlockType.Freeze else m.grid x y := by
  have h := foldPass_grid m.width m.height m.grid (allCoords m.width m.height) m.grid
    (fun _ _ => false) (fun _ _ => Iff.rfl) x y
  show ((allCoords m.width m.height).foldl (passCell m.width m.height)
    (m.grid, fun _ _ => false)).1 x y = _
  rw [h]
  simp only [mem_allCoords, and_assoc]

/-- `fix_edge_bugs` preserves which cells are `Hookable`. -/
theorem fix_hook_iff (m : Map) (a b : Nat) :
    (m.fix_edge_bugs).1.grid a b = BlockType.Hookable ↔
      m.grid a b = BlockType.Hookable := by
  rw [fix_grid_char]
  by_cases hc : a < m.width ∧ b < m.height ∧ m.grid a b = BlockType.Empty ∧
      hasBugAt m.width m.height m.grid a b = true
  · rw [if_pos hc]
    constructor
    · intro hF; cases hF
    · intro hH
      exfalso
      rcases hc with ⟨_, _, hE, _⟩
      rw [hE] at hH; cases hH
  · rw [if_neg hc]

/-- One neighbour probe of the `fix_edge_bugs` scan, rephrased: the guarded
wrapped-index probe succeeds exactly when the ideal neighbour `(x + dx - 1,
y + dy - 1)` exists, is in bounds, and holds `Hookable`. -/
theorem bugTerm_iff (w h : Nat) (g : GridFn) (x y dx dy : Nat)
    (hw : w < USIZE) (hh : h < USIZE) (hx : x < w) (hy : y < h)
    (hdx : dx ≤ 2) (hdy : dy ≤ 2) :
    ((if neighborCoord x dx < w ∧ neighborCoord y dy < h then
        decide (g (neighborCoord x dx) (neighborCoord y dy) = BlockType.Hookable)
      else false) = true) ↔
      (1 ≤ x + dx ∧ 1 ≤ y + dy ∧ x + dx - 1 < w ∧ y + dy - 1 < h ∧
        g (x + dx - 1) (y + dy - 1) = BlockType.Hookable) := by
  have hxs := neighborCoord_spec w x dx hw hx hdx
  have hys := neighborCoord_spec h y dy hh hy hdy
  by_cases hg : neighborCoord x dx < w ∧ neighborCoord y dy < h
  · rw [if_pos hg, decide_eq_true_iff]
    obtain ⟨hgx, hgy⟩ := hg
    have h1 := hxs.1.mp hgx
    have h2 := hys.1.mp hgy
    have e1 : neighborCoord x dx = x + dx - 1 := hxs.2.2 h1.1
    have e2 : neighborCoord y dy = y + dy - 1 := hys.2.2 h2.1
    rw [e1, e2]
    constructor
    · intro hH; exact ⟨h1.1, h2.1, h1.2, h2.2, hH⟩
    · intro hH; exact hH.2.2.2.2
  · rw [if_neg hg]
    constructor
    · intro hcontra; cases hcontra
    · rintro ⟨h1, h2, h3, h4, _⟩
      exact absurd ⟨hxs.1.mpr ⟨h1, h3⟩, hys.1.mpr ⟨h2, h4⟩⟩ hg

/-- For an in-bounds cell of a grid with `usize`-sized dimensions, the
wrapped-arithmetic probe of `fix_edge_bugs` fires exactly when the cell has
an in-bounds `Hookable` 8-neighbour. -/
theorem hasBugAt_iff_neighbor (m : Map) (hw : m.width < USIZE) (hh : m.height < USIZE)
    (x y : Nat) (hx : x < m.width) (hy : y < m.height) :
    hasBugAt m.width m.height m.grid x y = true ↔ HookableNeighbor m x y := by
  constructor
  · intro hb
    rw [hasBugAt, List.any_eq_true] at hb
    obtain ⟨dx, hdxmem, hb2⟩ := hb
    rw [List.any_eq_true] at hb2
    obtain ⟨dy, hdymem, hterm⟩ := hb2
    have hdx : dx ≤ 2 := by rw [List.mem_range] at hdxmem; omega
    have hdy : dy ≤ 2 := by rw [List.mem_range] at hdymem; omega
    by_cases h11 : dx = 1 ∧ dy = 1
    · rw [if_pos h11] at hterm; cases hterm
    · rw [if_neg h11] at hterm
      rw [bugTerm_iff m.width m.height m.grid x y dx dy hw hh hx hy hdx hdy] at hterm
      obtain ⟨h1, h2, h3, h4, hH⟩ := hterm
      refine ⟨x + dx - 1, y + dy - 1, h3, h4, ?_, hH⟩
      unfold adj8
      omega
  · rintro ⟨nx, ny, hnx, hny, ⟨hx3, hy3, hne⟩, hH⟩
    rw [hasBugAt, List.any_eq_true]
    refine ⟨nx + 1 - x, by rw [List.mem_range]; omega, ?_⟩
    rw [List.any_eq_true]
    refine ⟨ny + 1 - y, by rw [List.mem_range]; omega, ?_⟩
    have h11 : ¬(nx + 1 - x = 1 ∧ ny + 1 - y = 1) := by omega
    rw [if_neg h11]
    rw [bugTerm_iff m.width m.height m.grid x y (nx + 1 - x) (ny + 1 - y) hw hh hx hy
      (by omega) (by omega)]
    have ex : x + (nx + 1 - x) - 1 = nx := by omega
    have ey : y + (ny + 1 - y) - 1 = ny := by omega
    refine ⟨by omega, by omega, ?_, ?_, ?_⟩
    · rw [ex]; exact hnx
    · rw [ey]; exact hny
    · rw [ex, ey]; exact hH

/-- The incremental/interactive stepping path described by claim C6:
construct `Generator::new(config, seed)`, call `step(config)` up to
`max_steps` times while the walker is not finished, then call
`post_processing` and take the map. -/
def incremental_generate (max_steps : Nat) (seed : Nat) (config : GenerationConfig) :
    Except String Map :=
  let stepped := (List.replicate max_steps ()).foldlM
    (fun g _ => if g.walker.finished then pure g else g.step config)
    (Generator.new config seed)
  match stepped with
  | Except.error e => Except.error e
  | Except.ok g => Except.ok g.post_processing.map

/-- The generate loop leaves a finished generator untouched. -/
theorem genLoop_finished (cfg : GenerationConfig) :
    ∀ (n : Nat) (g : Generator), g.walker.finished = true → genLoop cfg n g = Except.ok g := by
  intro n
  induction n with
  | zero => intro g _; rfl
  | succ n _ =>
    intro g hfin
    show (if g.walker.finished then Except.ok g else _) = Except.ok g
    rw [hfin]
    rfl

/-- Stepping `max_steps` times while not finished (the incremental path)
computes exactly the `generate_map` loop. -/
theorem replicate_foldlM_eq_genLoop (cfg : GenerationConfig) :
    ∀ (n : Nat) (g : Generator),
      (List.replicate n ()).foldlM
        (fun g _ => if g.walker.finished then pure g else g.step cfg) g = genLoop cfg n g := by
  intro n
  induction n with
  | zero => intro g; rfl
  | succ n ih =>
    intro g
    rw [List.replicate_succ, List.foldlM_cons]
    by_cases hfin : g.walker.finished
    · rw [if_pos hfin]
      have hbind : (pure g >>= fun b => (List.replicate n ()).foldlM
          (fun g _ => if g.walker.finished then pure g else g.step cfg) b) =
          (List.replicate n ()).foldlM
          (fun g _ => if g.walker.finished then pure g else g.step cfg) g := rfl
      rw [hbind, ih g, genLoop_finished cfg n g hfin, genLoop_finished cfg (n + 1) g hfin]
    · rw [if_neg hfin]
      have hgen : genLoop cfg (n + 1) g =
          match g.step cfg with
          | Except.error e => Except.error e
          | Except.ok g' => genLoop cfg n g' := by
        show (if g.walker.finished then Except.ok g else _) = _
        rw [if_neg hfin]
      rw [hgen]
      cases hstep : g.step cfg with
      | error e =>
        have hbind : ((Except.error e : Except String Generator) >>= fun b =>
            (List.replicate n ()).foldlM
            (fun g _ => if g.walker.finished then pure g else g.step cfg) b) =
            Except.error e := rfl
        rw [hbind]
      | ok g' =>
        have hbind : ((Except.ok g' : Except String Generator) >>= fun b =>
            (List.replicate n ()).foldlM
            (fun g _ => if g.walker.finished then pure g else g.step cfg) b) =
            (List.replicate n ()).foldlM
            (fun g _ => if g.walker.finished then pure g else g.step cfg) g' := rfl
        rw [hbind, ih g']

/-- The map produced by a zero-step run with the default profile and seed 0:
the initial all-`Hookable` grid after post-processing alone. -/
def c2Map : Map := (Generator.new defaultConfig 0).post_processing.map

/-- A small all-`Empty` map used to instantiate the amended buffer claim. -/
def c2SmallMap : Map :=
  { width := 2, height := 2, grid := fun _ _ => BlockType.Empty, spawn := Position.new 0 0 }

/-- A small map with one `Hookable` corner, used to instantiate C5. -/
def c5SmallMap : Map :=
  { width := 2, height := 2,
    grid := fun a b => if a = 0 ∧ b = 0 then BlockType.Hookable else BlockType.Empty,
    spawn := Position.new 0 0 }

/-- A profile on which the very first step fails stuck detection: no kernel
mutation or momentum, always the best-ranked direction, a huge lock distance
and a zero lock delay. -/
def cfgStuck : GenerationConfig :=
  { defaultConfig with
    inner_size_mut_prob := 0
    inner_rad_mut_prob := 0
    outer_size_mut_prob := 0
    outer_rad_mut_prob := 0
    momentum_prob := 0
    pos_lock_max_delay := 0
    pos_lock_max_dist := 1000
    fade_steps := 0
    step_weights := RandomDistConfig.new none [1, 0, 0, 0] }

/-- A generator state whose walker is already finished. -/
def genFinished : Generator :=
  let g := Generator.new defaultConfig 0
  { g with walker := { g.walker with finished := true } }

/-- Payload of the zero-step default run, for the determinism witness. -/
def c1Map : Map := (Generator.new defaultConfig 0).post_processing.map

/-- C1: for every fixed triple of generation profile, seed and `max_steps`,
two invocations of `Generator::generate_map` return identical `Map`s — the
same cell value at every coordinate and the same spawn position. -/
theorem c1_generate_map_deterministic (max_steps seed : Nat) (config : GenerationConfig)
    (m₁ m₂ : Map)
    (h₁ : Generator.generate_map max_steps seed config = Except.ok m₁)
    (h₂ : Generator.generate_map max_steps seed config = Except.ok m₂) :
    (∀ x y, m₁.grid x y = m₂.grid x y) ∧ m₁.spawn = m₂.spawn := by
  rw [h₁] at h₂
  injection h₂ with h
  subst h
  exact ⟨fun _ _ => rfl, rfl⟩

theorem c1_witness :
    Generator.generate_map 0 0 defaultConfig = Except.ok c1Map ∧
      (∀ x y, c1Map.grid x y = c1Map.grid x y) ∧ c1Map.spawn = c1Map.spawn :=
  ⟨rfl, c1_generate_map_deterministic 0 0 defaultConfig c1Map c1Map rfl rfl⟩

/-- C2 (counterexample): the final map of a `generate_map` run does contain
an `Empty` cell 8-adjacent to a `Hookable` cell — room carving stamps a
`Hookable` platform inside the `Empty` room after the edge-bug repair pass,
e.g. `(47, 250)` is `Empty` next to the platform cell `(48, 250)` for a
zero-step run with the default profile. -/
theorem c2_counterexample :
    ∃ m : Map, Generator.generate_map 0 0 defaultConfig = Except.ok m ∧
      ¬(∀ x y nx ny, x < m.width → y < m.height → nx < m.width → ny < m.height →
        adj8 x y nx ny → m.grid x y = BlockType.Empty →
        m.grid nx ny ≠ BlockType.Hookable) := by
  refine ⟨c2Map, rfl, fun hAll => ?_⟩
  have hE : c2Map.grid 47 250 = BlockType.Empty := rfl
  have hH : c2Map.grid 48 250 = BlockType.Hookable := rfl
  have hadj : adj8 47 250 48 250 := by decide
  exact hAll 47 250 48 250 (by decide) (by decide) (by decide) (by decide) hadj hE hH

/-- C2 (amended): after the edge-bug repair pass and before room carving, no
`Empty` cell of the grid is 8-adjacent to a `Hookable` cell; room carving can
reintroduce such adjacencies at the room platforms. -/
theorem c2_buffer_after_fix (m : Map) (hw : m.width < USIZE) (hh : m.height < USIZE)
    (x y nx ny : Nat) (hx : x < m.width) (hy : y < m.height)
    (hnx : nx < m.width) (hny : ny < m.height) (hadj : adj8 x y nx ny)
    (hE : (m.fix_edge_bugs).1.grid x y = BlockType.Empty) :
    (m.fix_edge_bugs).1.grid nx ny ≠ BlockType.Hookable := by
  intro hH
  have hHm : m.grid nx ny = BlockType.Hookable := (fix_hook_iff m nx ny).mp hH
  have hchar := fix_grid_char m x y
  have hEm : m.grid x y = BlockType.Empty ∧
      ¬ hasBugAt m.width m.height m.grid x y = true := by
    by_cases hcond : x < m.width ∧ y < m.height ∧ m.grid x y = BlockType.Empty ∧
        hasBugAt m.width m.height m.grid x y = true
    · rw [if_pos hcond] at hchar
      rw [hchar] at hE
      cases hE
    · rw [if_neg hcond] at hchar
      rw [hchar] at hE
      exact ⟨hE, fun hB => hcond ⟨hx, hy, hE, hB⟩⟩
  exact hEm.2 ((hasBugAt_iff_neighbor m hw hh x y hx hy).mpr ⟨nx, ny, hnx, hny, hadj, hHm⟩)

theorem c2_witness :
    c2SmallMap.width < USIZE ∧
      (c2SmallMap.fix_edge_bugs).1.grid 0 1 ≠ BlockType.Hookable :=
  ⟨by decide, c2_buffer_after_fix c2SmallMap (by decide) (by decide) 0 0 0 1
    (by decide) (by decide) (by decide) (by decide) (by decide) rfl⟩

/-- C3: the claim says `validate` returns an explicit error value and never
panics for every possible field content; the code, however, unwraps
`inner_size_probs.values` and panics (modelled as `none`) on a config whose
`values` is `None`, contradicting the spec and `validate`'s own doc comment. -/
theorem c3_validate_panics_on_none : GenerationConfig.validate configNoValues = none := rfl

/-- C4 (counterexample): a config with `inner_size_probs.values = None`
satisfies none of the four listed error conditions, yet `validate` does not
return `Ok` on it (it panics), refuting the claimed characterization. -/
theorem c4_counterexample :
    ¬ validateErrCond configNoValues ∧
      GenerationConfig.validate configNoValues ≠ some (Except.ok ()) := by
  constructor
  · rintro (⟨vs, hvs, _⟩ | h | h | h)
    · exact Option.noConfusion hvs
    · exact absurd h (by decide)
    · exact absurd h (by decide)
    · exact absurd h (by decide)
  · intro h
    exact Option.noConfusion h

/-- C4 (amended): for every config whose `inner_size_probs.values` is `Some`
list, `validate` returns an error iff the list contains a zero kernel size,
a fade bound is zero, or the maximum subwaypoint distance is not strictly
positive, and returns `Ok` on every other such config; when `values` is
`None` the function panics instead. -/
theorem c4_validate_iff (c : GenerationConfig) (vs : List Nat)
    (hvs : c.inner_size_probs.values = some vs) :
    ((∃ e, GenerationConfig.validate c = some (Except.error e)) ↔
      (0 ∈ vs ∨ c.fade_max_size = 0 ∨ c.fade_min_size = 0 ∨ c.max_subwaypoint_dist ≤ 0)) ∧
    (GenerationConfig.validate c = some (Except.ok ()) ↔
      ¬(0 ∈ vs ∨ c.fade_max_size = 0 ∨ c.fade_min_size = 0 ∨ c.max_subwaypoint_dist ≤ 0)) := by
  have hany : ((vs.any fun v => decide (v = 0)) = true) ↔ 0 ∈ vs := by
    rw [List.any_eq_true]
    constructor
    · rintro ⟨v, hv, hd⟩
      rw [decide_eq_true_iff] at hd
      exact hd ▸ hv
    · intro h0
      exact ⟨0, h0, by decide⟩
  have hval : GenerationConfig.validate c =
      (if (vs.any fun v => decide (v = 0)) = true then
        some (Except.error "Invalid Config! (inner_size = 0)")
      else if c.fade_max_size = 0 ∨ c.fade_min_size = 0 then
        some (Except.error "fade kernel sizes must be larger than zero")
      else if c.max_subwaypoint_dist ≤ 0 then
        some (Except.error "max subwaypoint distance must be >0")
      else
        some (Except.ok ())) := by
    unfold GenerationConfig.validate
    rw [hvs]
  rw [hval]
  by_cases h1 : (vs.any fun v => decide (v = 0)) = true
  · rw [if_pos h1]
    have h0 : 0 ∈ vs := hany.mp h1
    constructor
    · constructor
      · intro _; exact Or.inl h0
      · intro _; exact ⟨"Invalid Config! (inner_size = 0)", rfl⟩
    · constructor
      · intro hc; cases hc
      · intro hc; exact absurd (Or.inl h0) hc
  · rw [if_neg h1]
    have h0 : ¬ 0 ∈ vs := fun h => h1 (hany.mpr h)
    by_cases h2 : c.fade_max_size = 0 ∨ c.fade_min_size = 0
    · rw [if_pos h2]
      constructor
      · constructor
        · intro _
          rcases h2 with h2 | h2
          · exact Or.inr (Or.inl h2)
          · exact Or.inr (Or.inr (Or.inl h2))
        · intro _; exact ⟨"fade kernel sizes must be larger than zero", rfl⟩
      · constructor
        · intro hc; cases hc
        · intro hc
          exfalso
          rcases h2 with h2 | h2
          · exact hc (Or.inr (Or.inl h2))
          · exact hc (Or.inr (Or.inr (Or.inl h2)))
    · rw [if_neg h2]
      by_cases h3 : c.max_subwaypoint_dist ≤ 0
      · rw [if_pos h3]
        constructor
        · constructor
          · intro _; exact Or.inr (Or.inr (Or.inr h3))
          · intro _; exact ⟨"max subwaypoint distance must be >0", rfl⟩
        · constructor
          · intro hc; cases hc
          · intro hc; exact absurd (Or.inr (Or.inr (Or.inr h3))) hc
      · rw [if_neg h3]
        constructor
        · constructor
          · rintro ⟨e, he⟩
            injection he with he2
            cases he2
          · rintro (h | h | h | h)
            · exact absurd h h0
            · exact absurd (Or.inl h) h2
            · exact absurd (Or.inr h) h2
            · exact absurd h h3
        · constructor
          · intro _
            rintro (h | h | h | h)
            · exact h0 h
            · exact h2 (Or.inl h)
            · exact h2 (Or.inr h)
            · exact h3 h
          · intro _; rfl

theorem c4_witness :
    defaultConfig.inner_size_probs.values = some [3, 5] ∧
      (GenerationConfig.validate defaultConfig = some (Except.ok ()) ↔
        ¬(0 ∈ [3, 5] ∨ defaultConfig.fade_max_size = 0 ∨ defaultConfig.fade_min_size = 0 ∨
          defaultConfig.max_subwaypoint_dist ≤ 0)) :=
  ⟨rfl, (c4_validate_iff defaultConfig [3, 5] rfl).2⟩

/-- C5: after `fix_edge_bugs` runs on a grid, every cell that was `Empty` and
had at least one in-bounds `Hookable` 8-neighbour holds `Freeze`, and every
other cell holds the value it held before the pass. -/
theorem c5_fix_edge_bugs_spec (m : Map) (hw : m.width < USIZE) (hh : m.height < USIZE)
    (x y : Nat) :
    (x < m.width → y < m.height → m.grid x y = BlockType.Empty → HookableNeighbor m x y →
      (m.fix_edge_bugs).1.grid x y = BlockType.Freeze) ∧
    (¬(x < m.width ∧ y < m.height ∧ m.grid x y = BlockType.Empty ∧ HookableNeighbor m x y) →
      (m.fix_edge_bugs).1.grid x y = m.grid x y) := by
  constructor
  · intro hx hy hE hN
    rw [fix_grid_char]
    rw [if_pos ⟨hx, hy, hE, (hasBugAt_iff_neighbor m hw hh x y hx hy).mpr hN⟩]
  · intro hnot
    rw [fix_grid_char]
    apply if_neg
    rintro ⟨hx, hy, hE, hB⟩
    exact hnot ⟨hx, hy, hE, (hasBugAt_iff_neighbor m hw hh x y hx hy).mp hB⟩

theorem c5_witness :
    c5SmallMap.width < USIZE ∧ (c5SmallMap.fix_edge_bugs).1.grid 0 1 = BlockType.Freeze :=
  ⟨by decide, (c5_fix_edge_bugs_spec c5SmallMap (by decide) (by decide) 0 1).1
    (by decide) (by decide) (by decide)
    ⟨0, 0, by decide, by decide, by decide, by decide⟩⟩

/-- C6: `generate_map` is behaviourally identical to the incremental path of
constructing the generator, stepping up to `max_steps` times while the walker
is not finished, and then post-processing. -/
theorem c6_generate_map_eq_incremental (max_steps seed : Nat) (config : GenerationConfig) :
    incremental_generate max_steps seed config =
      Generator.generate_map max_steps seed config := by
  unfold incremental_generate Generator.generate_map
  rw [replicate_foldlM_eq_genLoop config max_steps (Generator.new config seed)]

/-- C7: when the stepping loop of `generate_map` fails, `generate_map`
returns that same error to the caller and returns no map (post-processing
only runs on the success path). -/
theorem c7_step_error_propagates (max_steps seed : Nat) (config : GenerationConfig)
    (e : String)
    (h : genLoop config max_steps (Generator.new config seed) = Except.error e) :
    Generator.generate_map max_steps seed config = Except.error e ∧
      ∀ m, Generator.generate_map max_steps seed config ≠ Except.ok m := by
  unfold Generator.generate_map
  rw [h]
  exact ⟨rfl, fun m hc => Except.noConfusion hc⟩

theorem c7_witness :
    genLoop cfgStuck 1 (Generator.new cfgStuck 0) = Except.error "Generation got stuck" ∧
      Generator.generate_map 1 0 cfgStuck = Except.error "Generation got stuck" :=
  ⟨rfl, (c7_step_error_propagates 1 0 cfgStuck "Generation got stuck" rfl).1⟩

/-- C8: once the walker's `finished` flag is true, `Generator::step` is a
no-op — it returns `Ok` and leaves the whole generator state (map, walker,
sampler) unchanged. -/
theorem c8_step_noop_when_finished (config : GenerationConfig) (g : Generator)
    (hfin : g.walker.finished = true) : g.step config = Except.ok g := by
  unfold Generator.step
  rw [CuteWalker.is_goal_reached, if_pos hfin]
  have hng : ¬ ((none : Option Bool) = some true) := fun hc => Option.noConfusion hc
  rw [if_neg hng]
  simp [hfin]

theorem c8_witness :
    genFinished.walker.finished = true ∧
      genFinished.step defaultConfig = Except.ok genFinished :=
  ⟨rfl, c8_step_noop_when_finished defaultConfig genFinished rfl⟩

/-- C9: for every profile and seed, `Generator::new` yields a map of width
300, height 300, spawn `(50, 250)`, with every cell `Hookable`, and the
walker placed at the spawn position. -/
theorem c9_generator_new_init (config : GenerationConfig) (seed : Nat) :
    (Generator.new config seed).map.width = 300 ∧
      (Generator.new config seed).map.height = 300 ∧
      (Generator.new config seed).map.spawn = Position.new 50 250 ∧
      (∀ x y, (Generator.new config seed).map.grid x y = BlockType.Hookable) ∧
      (Generator.new config seed).walker.pos = Position.new 50 250 :=
  ⟨rfl, rfl, rfl, fun _ _ => rfl, rfl⟩

/-- C10: in `fix_edge_bugs` the neighbour index `x + dx - 1` underflows for
border cells; under `usize` wrap-around semantics it wraps to `2^64 - 1`,
which always fails the `< width` guard, so the scan never indexes out of
bounds and border cells are never converted on account of a non-existent
neighbour — in general the wrapped guard is equivalent to the ideal in-bounds
test. -/
theorem c10_neighbor_underflow_guard (w v d : Nat) (hw : w < USIZE) (hv : v < w)
    (hd : d ≤ 2) :
    (v + d = 0 → neighborCoord v d = USIZE - 1 ∧ ¬ neighborCoord v d < w) ∧
      (neighborCoord v d < w ↔ 1 ≤ v + d ∧ v + d - 1 < w) := by
  have hs := neighborCoord_spec w v d hw hv hd
  refine ⟨fun h0 => ⟨hs.2.1 h0, ?_⟩, hs.1⟩
  rw [hs.2.1 h0]
  rw [USIZE_eq] at hw ⊢
  omega

theorem c10_witness :
    (0 + 0 = 0 → neighborCoord 0 0 = USIZE - 1 ∧ ¬ neighborCoord 0 0 < 300) ∧
      (neighborCoord 0 0 < 300 ↔ 1 ≤ 0 + 0 ∧ 0 + 0 - 1 < 300) :=
  c10_neighbor_underflow_guard 300 0 0 (by decide) (by decide) (by decide)

end Gores

